import Mathlib

/-!
# Verification of the mystermax authoritative movement core

A shallow embedding, in Lean 4, of the movement/anti-cheat/state-sync core of
the mystermax game server (JavaScript), together with theorems settling the
frozen claims about its specification.

Embedded source files:
* `src/utils/math.js` — direction vectors, direction validity, Manhattan
  distance, packed tile keys.
* `src/game/world/tileCollision.js` — tile walkability and speed modifiers.
* `src/game/world/gameMap.js` — `GameMap.isWalkable` / `getTile`.
* `src/game/entities/player.js` — the movement-relevant `Player` fields and
  `updateCurSpeed`.
* `src/game/systems/movementSystem.js` — `handleMoveStart`,
  `handleDirectionChange`, the per-tick `update`, `isTileOccupiedByEntity`,
  `sendCorrection`.
* `src/security/antiCheat.js` — `initPlayer`, `recordMove`, `detectSpeedHack`.
* `src/game/sync/deltaCompression.js` — `initPlayer`, `computeDelta`.
* `src/network/packetValidator.js` and `src/network/wsServer.js`
  (`handleMessage`) plus `src/network/packetRouter.js` — structural packet
  validation and routing.
* `src/core/config.js` — the relevant default configuration constants.

Conventions of the embedding:
* JSON-derived dynamic values are modelled by `JsValue`.  All inbound packets
  are produced by `JSON.parse`, which can never yield `NaN` or `±Infinity`
  (JSON has no syntax for them), so numbers are modelled by `ℚ` and
  `Number.isFinite(v)` coincides with "`v` is a number" on this domain.
  `Number.isInteger(q)` is `q.den = 1`.
* Wall-clock reads (`Date.now()`) are passed in explicitly as a `now : ℚ`
  parameter.
* JavaScript `Map`s that are only read/written pointwise are modelled as
  functions into `Option`; object collections that the code iterates
  (`players`, `mobs`) are modelled as lists.
* Outbound sends (`sendToPlayer`, `broadcastToNearby`) are modelled as an
  emitted list of `Effect`s, in program order.
-/

namespace Mystermax

/-- A JSON-compatible JavaScript value, as produced by `JSON.parse` plus the
`undefined` read off a missing object property.  `JSON.parse` cannot produce
`NaN`/`±Infinity`, so every number here is a finite rational. -/
inductive JsValue where
  | num (q : ℚ)
  | str (s : String)
  | jsBool (b : Bool)
  | jsNull
  | undef
  deriving DecidableEq, Repr

/-- `Number.isFinite(v)`: on JSON-parseable values, exactly the numbers. -/
def JsValue.isFiniteNum : JsValue → Bool
  | .num _ => true
  | _ => false

/-- `typeof v === 'string'`. -/
def JsValue.isStr : JsValue → Bool
  | .str _ => true
  | _ => false

/-- `Number.isInteger(v)`. -/
def JsValue.isInt : JsValue → Bool
  | .num q => q.den == 1
  | _ => false

/-- The numeric content of a value (`0` as a don't-care for non-numbers;
only used after a numeric check has succeeded). -/
def JsValue.toNum : JsValue → ℚ
  | .num q => q
  | _ => 0

/-- A JavaScript object: an association list of (property, value) pairs with
distinct property names, in insertion order. -/
abbrev JsObj := List (String × JsValue)

/-- Property read `o[k]`: the stored value, or `undefined` when absent. -/
def JsObj.get (o : JsObj) (k : String) : JsValue :=
  ((o.find? (fun e => e.1 == k)).map Prod.snd).getD JsValue.undef

/-- Whether object `o` has own property `k`. -/
def JsObj.hasKey (o : JsObj) (k : String) : Bool :=
  o.any (fun e => e.1 == k)

/-- Property write `o[k] = v`: overwrite in place when present, else append
(JavaScript objects keep insertion order). -/
def JsObj.set (o : JsObj) (k : String) (v : JsValue) : JsObj :=
  if o.hasKey k then o.map (fun e => if e.1 == k then (k, v) else e)
  else o ++ [(k, v)]

/-! ## `src/utils/math.js` -/

/-- `isValidDirection(dir)`: `Number.isInteger(dir) && dir >= 0 && dir <= 3`. -/
def isValidDirection (v : JsValue) : Bool :=
  match v with
  | .num q => q.den == 1 && decide ((0 : ℚ) ≤ q) && decide (q ≤ 3)
  | _ => false

/-- `DIRECTION_VECTORS[dir]` for a valid direction code:
0=UP `(0,-1)`, 1=RIGHT `(1,0)`, 2=DOWN `(0,1)`, 3=LEFT `(-1,0)`. -/
def directionVector (d : ℚ) : ℤ × ℤ :=
  if d = 0 then (0, -1)
  else if d = 1 then (1, 0)
  else if d = 2 then (0, 1)
  else (-1, 0)

/-- `manhattanDistance(x1, y1, x2, y2) = |x1 - x2| + |y1 - y2|`. -/
def manhattanDistance (x1 y1 x2 y2 : ℚ) : ℚ :=
  |x1 - x2| + |y1 - y2|

/-- `getKey(x, y) = 10000 * x + y` — packed tile key. -/
def getKey (x y : ℤ) : ℤ := 10000 * x + y

/-! ## `src/core/config.js` (defaults relevant to the core) -/

/-- `config.security.speedHackTolerance` default `0.15`. -/
def speedHackTolerance : ℚ := 15 / 100

/-- `config.security.maxTeleportDistance = 2`. -/
def maxTeleportDistance : ℚ := 2

/-- `config.game.defaultSpeed = 750` ms per tile. -/
def defaultSpeed : ℚ := 750

/-! ## `src/game/world/tileCollision.js` -/

/-- `BLOCKED_TILES = new Set([325])`. -/
def BLOCKED_TILES : List ℤ := [325]

/-- `isTileWalkable(tileId, wallTile)`; `none` stands for the
`undefined`/`null` tile id read off an out-of-bounds access. -/
def isTileWalkable (tileId : Option ℤ) (wallTile : Option ℤ) : Bool :=
  match tileId with
  | none => false
  | some t =>
    if BLOCKED_TILES.contains t then false
    else match wallTile with
      | some w => t != w
      | none => true

/-- `getTileSpeedModifier(tileId, tileSpeedMap)`: table lookup, `0` if the
tile id is absent from the table (or the tile read was `undefined`). -/
def getTileSpeedModifier (tileId : Option ℤ) (tileSpeedMap : ℤ → Option ℚ) : ℚ :=
  match tileId with
  | some t => (tileSpeedMap t).getD 0
  | none => 0

/-! ## `src/game/world/gameMap.js` -/

/-- A game map/zone: tile grid, optional wall tile, per-tile speed table and
the set of object-blocked packed keys.  The flat `tiles` array is modelled as
a total function on in-bounds coordinates. -/
structure GameMap where
  width : ℤ
  height : ℤ
  tile : ℤ → ℤ → ℤ
  wallTile : Option ℤ
  tileSpeed : ℤ → Option ℚ
  blockingObjects : ℤ → Bool

/-- `GameMap.inBounds(x, y)`. -/
def GameMap.inBounds (m : GameMap) (x y : ℤ) : Bool :=
  decide (0 ≤ x) && decide (x < m.width) && decide (0 ≤ y) && decide (y < m.height)

/-- `GameMap.getTile(x, y)`: `undefined` out of bounds. -/
def GameMap.getTile (m : GameMap) (x y : ℤ) : Option ℤ :=
  if m.inBounds x y then some (m.tile x y) else none

/-- `GameMap.isWalkable(x, y)`: in bounds, tile walkable, no blocking object. -/
def GameMap.isWalkable (m : GameMap) (x y : ℤ) : Bool :=
  if !(m.inBounds x y) then false
  else if !(isTileWalkable (m.getTile x y) m.wallTile) then false
  else if m.blockingObjects (getKey x y) then false
  else true

/-! ## `src/game/entities/player.js` / `mob.js` (movement-relevant fields) -/

/-- The movement-relevant state of a server-side player.  Fields the movement
core never reads or writes (stats, appearance, chat flag, …) are omitted. -/
structure Player where
  id : String
  x : ℤ
  y : ℤ
  fromX : ℤ
  fromY : ℤ
  dir : ℚ
  mapId : String
  speed : ℚ
  tileSpeedMod : ℚ
  curSpeed : ℚ
  isMoving : Bool
  moveStartTime : ℚ
  lastMoveTime : ℚ
  inputSequence : ℕ
  deriving DecidableEq, Repr

/-- `Player.updateCurSpeed(tileSpeedMod)`: effective speed is base speed plus
the tile modifier, floor-clamped to 100 ms. -/
def Player.updateCurSpeed (p : Player) (tileSpeedMod : ℚ) : Player :=
  let cs := p.speed + tileSpeedMod
  { p with tileSpeedMod := tileSpeedMod, curSpeed := if cs < 100 then 100 else cs }

/-- The movement-relevant state of a mob (occupancy checks read only these). -/
structure Mob where
  id : String
  x : ℤ
  y : ℤ
  mapId : String
  deriving DecidableEq, Repr

/-! ## Outbound network effects

`sendToPlayer` / `broadcastToNearby` calls, recorded in program order. -/

/-- One outbound send performed by the movement core. -/
inductive Effect where
  /-- `sendCorrection`: `sendToPlayer(player.id, {type:'pos', x, y})`. -/
  | correction (pid : String) (x y : ℤ)
  /-- `broadcastToNearby(x, y, mapId, player.toMovePacket(), player.id)` where
  `toMovePacket() = {type:'move', id, x, y}`. -/
  | broadcastMove (x y : ℤ) (mapId : String) (id : String) (px py : ℤ)
      (excludeId : String)
  /-- `broadcastToNearby(x, y, mapId, player.toUpdatePacket(), null)` where
  `toUpdatePacket() = {type:'p', id, s, d, x, y, ch}`. -/
  | broadcastUpdate (x y : ℤ) (mapId : String) (id : String) (s d : ℚ)
      (px py : ℤ)
  deriving DecidableEq, Repr

/-! ## `src/security/antiCheat.js` -/

/-- One entry of `playerHistory`: recent position samples (insertion order, a
sample is `(x, y, time)`), violation count, time of last recorded move. -/
structure ACEntry where
  positions : List (ℤ × ℤ × ℚ)
  violations : ℕ
  lastMoveTime : ℚ
  deriving DecidableEq, Repr

/-- The `AntiCheat` instance state: `playerHistory` keyed by player id
(`maxViolations = 10`, `historySize = 20` are fixed in the constructor). -/
structure ACState where
  playerHistory : String → Option ACEntry

/-- `AntiCheat.initPlayer(playerId)`. -/
def ACState.initPlayer (st : ACState) (pid : String) : ACState :=
  ⟨fun k => if k = pid then some ⟨[], 0, 0⟩ else st.playerHistory k⟩

/-- `AntiCheat.recordMove(playerId, x, y)` at wall-clock time `now`: no-op
without a history entry; otherwise push a sample (dropping the oldest beyond
20) and stamp `lastMoveTime`. -/
def ACState.recordMove (st : ACState) (pid : String) (x y : ℤ) (now : ℚ) : ACState :=
  match st.playerHistory pid with
  | none => st
  | some h =>
    let pushed := h.positions ++ [(x, y, now)]
    let pruned := if pushed.length > 20 then pushed.tail else pushed
    ⟨fun k => if k = pid then some ⟨pruned, h.violations, now⟩ else st.playerHistory k⟩

/-- `AntiCheat.detectSpeedHack(playerId, expectedSpeed)`: compares the elapsed
time between the last two recorded samples (`positions[n-1]`, `positions[n-2]`)
against `expectedSpeed * (1 - tolerance)`; on violation increments the
violation counter and returns `true`.  Returns the flag and the new state. -/
def ACState.detectSpeedHack (st : ACState) (pid : String) (expectedSpeed : ℚ) :
    Bool × ACState :=
  match st.playerHistory pid with
  | none => (false, st)
  | some h =>
    -- `positions[length-1]` and `positions[length-2]` are the last two
    -- samples; fewer than two samples is an early `false`.
    match h.positions.reverse with
    | lastS :: prevS :: _ =>
      let elapsed := lastS.2.2 - prevS.2.2
      let minTime := expectedSpeed * (1 - speedHackTolerance)
      if elapsed < minTime then
        (true,
          ⟨fun k => if k = pid then
              some ⟨h.positions, h.violations + 1, h.lastMoveTime⟩
            else st.playerHistory k⟩)
      else (false, st)
    | _ => (false, st)

/-! ## `src/game/sync/deltaCompression.js` -/

/-- The `DeltaCompression` instance state: `previousStates` maps an observer
player id to its per-entity last-sent snapshots. -/
structure DCState where
  previousStates : String → Option (String → Option JsObj)

/-- `DeltaCompression.initPlayer(playerId)`. -/
def DCState.initPlayer (st : DCState) (pid : String) : DCState :=
  ⟨fun k => if k = pid then some (fun _ => none) else st.previousStates k⟩

/-- `DeltaCompression.computeDelta(playerId, entityId, currentState)`.
Returns `(message, newState)` where the message is `none` for the suppressed
(`null`) case, and `some` an object otherwise. -/
def DCState.computeDelta (st : DCState) (pid : String) (entityId : String)
    (currentState : JsObj) : Option JsObj × DCState :=
  match st.previousStates pid with
  | none => (some currentState, st)
  | some entities =>
    match entities entityId with
    | none =>
      -- First time seeing this entity: record and send the full state.
      (some currentState,
        ⟨fun k => if k = pid then
            some (fun e => if e = entityId then some currentState else entities e)
          else st.previousStates k⟩)
    | some previousEntity =>
      -- `for (const [key, value] of Object.entries(currentState))
      --    if (previousEntity[key] !== value) delta[key] = value;`
      let changed : JsObj :=
        currentState.filter (fun e => previousEntity.get e.1 != e.2)
      -- `hasChanges` is false exactly when no entry survived the filter
      if changed = [] then (none, st)
      else
        let delta := (JsObj.set changed "id" (.str entityId)).set "type"
          (currentState.get "type")
        (some delta,
          ⟨fun k => if k = pid then
              some (fun e => if e = entityId then some currentState else entities e)
            else st.previousStates k⟩)

/-! ## `src/game/systems/movementSystem.js` and the world it reads

`GameServer` state read by the movement core: the `players` and `mobs`
registries, the `mapLoader` (`getMap`), the movement system's `pendingMoves`
map and the (never-consulted-by-movement) `antiCheat` instance. -/

/-- The simulation state touched by the movement core. -/
structure World where
  players : List Player
  mobs : List Mob
  maps : String → Option GameMap
  pending : String → Option ℚ
  antiCheat : ACState

/-- `GameServer.getPlayer(playerId)`. -/
def World.getPlayer (w : World) (pid : String) : Option Player :=
  w.players.find? (fun p => p.id == pid)

/-- `MovementSystem.isTileOccupiedByEntity(x, y, mapId, excludeId)`: linear
scan of players then mobs. -/
def isTileOccupiedByEntity (w : World) (x y : ℤ) (mapId : String)
    (excludeId : String) : Bool :=
  w.players.any (fun p =>
      p.id != excludeId && p.mapId == mapId && p.x == x && p.y == y) ||
  w.mobs.any (fun m =>
      m.id != excludeId && m.mapId == mapId && m.x == x && m.y == y)

/-- A structurally validated `h` packet `{x, y, d}`: the validator guarantees
finite numeric `x`, `y`; `d` may still be any value (including `undefined`). -/
structure HPacket where
  x : ℚ
  y : ℚ
  d : JsValue
  deriving DecidableEq, Repr

/-- The result of one `handleMoveStart`/`handleDirectionChange` call: the
(only) mutated player, the movement system's `pendingMoves`, and the sends. -/
structure MoveResult where
  player : Player
  pending : String → Option ℚ
  effects : List Effect

/-- `pendingMoves.set(player.id, { completeTime })`. -/
def setPending (pending : String → Option ℚ) (pid : String) (t : ℚ) :
    String → Option ℚ :=
  fun k => if k = pid then some t else pending k

/-- The tail of `handleMoveStart` after the client-position check: target
computation, map lookup, walkability, occupancy, speed validation and the
accepted-move state update.  From the position check on, the code reads only
the server's `player.x`/`player.y`, never the packet's coordinates. -/
def processMove (w : World) (now : ℚ) (p : Player) (dq : ℚ) : MoveResult :=
  let vec := directionVector dq
  let targetX := p.x + vec.1
  let targetY := p.y + vec.2
  match w.maps p.mapId with
  | none => ⟨p, w.pending, [.correction p.id p.x p.y]⟩
  | some map =>
    if !(map.isWalkable targetX targetY) then
      -- Update facing direction but don't move.
      let p' := { p with dir := dq }
      ⟨p', w.pending,
        [.broadcastUpdate p'.x p'.y p'.mapId p'.id p'.curSpeed p'.dir p'.x p'.y]⟩
    else if isTileOccupiedByEntity w targetX targetY p.mapId p.id then
      let p' := { p with dir := dq }
      ⟨p', w.pending,
        [.broadcastUpdate p'.x p'.y p'.mapId p'.id p'.curSpeed p'.dir p'.x p'.y]⟩
    else if p.lastMoveTime > 0 ∧ now - p.lastMoveTime < p.curSpeed * (1 - speedHackTolerance) then
      -- Speed hack detected: correction, move not applied.
      ⟨p, w.pending, [.correction p.id p.x p.y]⟩
    else
      -- Start the move: occupy the target tile immediately.
      let p1 : Player :=
        { p with dir := dq, fromX := p.x, fromY := p.y, isMoving := true,
                 moveStartTime := now, x := targetX, y := targetY,
                 lastMoveTime := now }
      let tileSpeedMod := getTileSpeedModifier (map.getTile targetX targetY) map.tileSpeed
      let p2 := p1.updateCurSpeed tileSpeedMod
      let p3 := { p2 with inputSequence := p2.inputSequence + 1 }
      ⟨p3, setPending w.pending p.id (now + p2.curSpeed),
        [.broadcastMove p2.x p2.y p2.mapId p2.id p2.x p2.y p2.id]⟩

/-- `MovementSystem.handleMoveStart(player, packet)` at wall-clock `now`:
direction validation, mid-traversal early return, client/server position
check (hard correction beyond `maxTeleportDistance`, silent correction
within it), then `processMove`. -/
def handleMoveStart (w : World) (now : ℚ) (p : Player) (pkt : HPacket) :
    MoveResult :=
  if !(isValidDirection pkt.d) then
    ⟨p, w.pending, [.correction p.id p.x p.y]⟩
  else if p.isMoving then
    ⟨p, w.pending, []⟩
  else if pkt.x ≠ (p.x : ℚ) ∨ pkt.y ≠ (p.y : ℚ) then
    if manhattanDistance pkt.x pkt.y p.x p.y > maxTeleportDistance then
      ⟨p, w.pending, [.correction p.id p.x p.y]⟩
    else
      -- Minor desync: correct the client silently and keep processing with
      -- the server's position.
      let r := processMove w now p pkt.d.toNum
      ⟨r.player, r.pending, .correction p.id p.x p.y :: r.effects⟩
  else
    processMove w now p pkt.d.toNum

/-- `MovementSystem.handleDirectionChange(player, packet)`: validate the
direction, set facing, broadcast `toUpdatePacket` (no exclusion). -/
def handleDirectionChange (p : Player) (d : JsValue) : Player × List Effect :=
  if !(isValidDirection d) then (p, [])
  else
    let p' := { p with dir := d.toNum }
    (p', [.broadcastUpdate p'.x p'.y p'.mapId p'.id p'.curSpeed p'.dir p'.x p'.y])

/-- `player.isMoving = false; player.fromX = player.x; player.fromY =
player.y;` — the completion step of `MovementSystem.update`. -/
def finalizeMove (p : Player) : Player :=
  { p with isMoving := false, fromX := p.x, fromY := p.y }

/-- `MovementSystem.update(deltaTime, tickCount)` at wall-clock `now`:
finalize every pending move whose `completeTime` has elapsed and drop its
entry. -/
def movementUpdate (w : World) (now : ℚ) : World :=
  { w with
    players := w.players.map (fun p =>
      match w.pending p.id with
      | some t => if t ≤ now then finalizeMove p else p
      | none => p),
    pending := fun pid =>
      match w.pending pid with
      | some t => if t ≤ now then none else some t
      | none => none }

/-! ## Event-level semantics

`PacketRouter.registerHandlers` dispatches an inbound `'h'` packet to
`GameServer.handleMoveStart` and `'m'` to `GameServer.handleDirectionChange`
synchronously on receipt; the tick loop (`GameServer.update`) runs
`movementSystem.update` (combat `update` is empty and the snapshot step only
sends).  `GameServer.handleMoveStart` looks the player up by the client's
`playerId` and is a no-op when absent. -/

/-- An externally triggered step of the movement core: packet receipt
(asynchronous, outside any tick) or one tick firing. -/
inductive Event where
  | hPkt (pid : String) (pkt : HPacket) (now : ℚ)
  | mPkt (pid : String) (d : JsValue) (now : ℚ)
  | tick (now : ℚ)

/-- Replace the stored player object with the given id. -/
def setPlayer (ps : List Player) (pid : String) (p' : Player) : List Player :=
  ps.map (fun q => if q.id == pid then p' else q)

/-- One step of the server: route a received packet to its handler, or fire
one tick.  Returns the new world and the outbound sends. -/
def stepEvent (w : World) (e : Event) : World × List Effect :=
  match e with
  | .hPkt pid pkt now =>
    match w.getPlayer pid with
    | none => (w, [])
    | some p =>
      let r := handleMoveStart w now p pkt
      ({ w with players := setPlayer w.players pid r.player,
                pending := r.pending }, r.effects)
  | .mPkt pid d _ =>
    match w.getPlayer pid with
    | none => (w, [])
    | some p =>
      let r := handleDirectionChange p d
      ({ w with players := setPlayer w.players pid r.1 }, r.2)
  | .tick now => (movementUpdate w now, [])

/-- A run of the server over a list of events (states only). -/
def runEvents (w : World) (es : List Event) : World :=
  es.foldl (fun w e => (stepEvent w e).1) w

/-! ## `src/network/packetValidator.js` -/

/-- The `'h'` validator: `Number.isFinite(pkt.x) && Number.isFinite(pkt.y) &&
(pkt.d === undefined || (Number.isInteger(pkt.d) && pkt.d >= 0 && pkt.d <= 3))`. -/
def hPacketValid (pkt : JsObj) : Bool :=
  (pkt.get "x").isFiniteNum && (pkt.get "y").isFiniteNum &&
  (pkt.get "d" == JsValue.undef ||
    ((pkt.get "d").isInt && decide ((0 : ℚ) ≤ (pkt.get "d").toNum) &&
      decide ((pkt.get "d").toNum ≤ 3)))

/-- The `'m'` validator: `Number.isFinite(pkt.x) && Number.isFinite(pkt.y) &&
Number.isInteger(pkt.d) && pkt.d >= 0 && pkt.d <= 3`. -/
def mPacketValid (pkt : JsObj) : Bool :=
  (pkt.get "x").isFiniteNum && (pkt.get "y").isFiniteNum &&
  (pkt.get "d").isInt && decide ((0 : ℚ) ≤ (pkt.get "d").toNum) &&
  decide ((pkt.get "d").toNum ≤ 3)

/-- `PacketValidator.registerValidators`: the per-type structural validator,
`none` for packet types with no registered validator. -/
def validatorFor (t : String) : Option (JsObj → Bool) :=
  if t = "client" then
    some (fun pkt => (pkt.get "ver").isStr && (pkt.get "agent").isStr)
  else if t = "login" then
    some (fun pkt => (pkt.get "data").isStr ||
      ((pkt.get "user").isStr && (pkt.get "pass").isStr))
  else if t = "guest" then some (fun _ => true)
  else if t = "h" then some hPacketValid
  else if t = "m" then some mPacketValid
  else if t = "a" then some (fun _ => true)
  else if t = "t" then some (fun pkt => pkt.get "t" != JsValue.undef)
  else if t = "g" then some (fun _ => true)
  else if t = "u" then
    some (fun pkt => (pkt.get "slot").isInt && decide ((0 : ℚ) ≤ (pkt.get "slot").toNum))
  else if t = "d" then
    some (fun pkt => (pkt.get "slot").isInt && decide ((0 : ℚ) ≤ (pkt.get "slot").toNum))
  else if t = "sw" then
    some (fun pkt => (pkt.get "slot").isInt && (pkt.get "swap").isInt &&
      decide ((0 : ℚ) ≤ (pkt.get "slot").toNum) &&
      decide ((0 : ℚ) ≤ (pkt.get "swap").toNum))
  else if t = "chat" then
    some (fun pkt => match pkt.get "data" with
      | .str s => decide (0 < s.length) && decide (s.length ≤ 500)
      | _ => false)
  else if t = "c" then some (fun pkt => (pkt.get "r").isStr)
  else if t = "bld" then some (fun pkt => pkt.get "tpl" != JsValue.undef)
  else if t = "P" then some (fun _ => true)
  else if t = "A" then some (fun _ => true)
  else none

/-- `PacketValidator.validate(packet)`: packets without a string `type` are
rejected; unknown types are allowed through (and left unhandled). -/
def validate (pkt : JsObj) : Bool :=
  match pkt.get "type" with
  | .str t =>
    match validatorFor t with
    | some v => v pkt
    | none => true
  | _ => false

/-- The packet types with a registered handler in
`PacketRouter.registerHandlers`. -/
def handlerRegistered (t : String) : Bool :=
  ["client", "login", "guest", "h", "m", "a", "t", "g", "u", "d", "sw",
   "chat", "c", "bld", "P"].contains t

/-- `NetworkServer.handleMessage` after JSON parsing (rate limiting aside):
validate, then hand to `PacketRouter.route`.  Returns the packet type whose
handler runs, or `none` when the packet is dropped (validation failure) or
unhandled. -/
def routeMessage (pkt : JsObj) : Option String :=
  if validate pkt then
    match pkt.get "type" with
    | .str t => if handlerRegistered t then some t else none
    | _ => none
  else none

/-! ## Generic helper lemmas -/

/-- `find?` commutes with a `map` that does not disturb the predicate. -/
theorem find?_map_pred {α : Type} {g : α → α} {pr : α → Bool}
    (hg : ∀ e, pr (g e) = pr e) (l : List α) :
    (l.map g).find? pr = (l.find? pr).map g := by
  induction l with
  | nil => rfl
  | cons a l ih =>
    simp only [List.map_cons, List.find?_cons, hg a]
    cases h : pr a
    · exact ih
    · rfl

/-- A `find?` hit on a key predicate yields an element with that key. -/
theorem find?_key_eq {l : JsObj} {k : String} {e : String × JsValue}
    (h : l.find? (fun e => e.1 == k) = some e) : e.1 = k := by
  have := List.find?_some h
  simpa using this

theorem JsObj.get_of_find? {o : JsObj} {k : String} {e : String × JsValue}
    (h : o.find? (fun e => e.1 == k) = some e) : o.get k = e.2 := by
  simp [JsObj.get, h]

/-- `hasKey` agrees with the success of the `find?` underlying `get`. -/
theorem JsObj.hasKey_eq_isSome (o : JsObj) (k : String) :
    o.hasKey k = (o.find? (fun e => e.1 == k)).isSome := by
  rw [Bool.eq_iff_iff]
  simp [JsObj.hasKey, List.any_eq_true, List.find?_isSome]

theorem JsObj.get_of_not_hasKey {o : JsObj} {k : String}
    (h : o.hasKey k = false) : o.get k = JsValue.undef := by
  rw [JsObj.hasKey_eq_isSome] at h
  have hf : o.find? (fun e => e.1 == k) = none := by
    cases hfind : o.find? (fun e => e.1 == k) with
    | none => rfl
    | some e => rw [hfind] at h; simp at h
  simp [JsObj.get, hf]

theorem JsObj.mem_get_of_hasKey {o : JsObj} {k : String}
    (h : o.hasKey k = true) : (k, o.get k) ∈ o := by
  rw [JsObj.hasKey_eq_isSome] at h
  obtain ⟨e', hf⟩ := Option.isSome_iff_exists.mp h
  have hmem := List.mem_of_find?_eq_some hf
  have hkey := find?_key_eq hf
  have hget := JsObj.get_of_find? hf
  rw [hget]
  have he : e' = (k, e'.2) := by
    cases e'
    simp only at hkey
    simp [hkey]
  rwa [← he]

/-- With distinct keys, membership determines the property read. -/
theorem JsObj.get_of_mem_nodup {o : JsObj} (hnd : (o.map Prod.fst).Nodup)
    {k : String} {v : JsValue} (hm : (k, v) ∈ o) : o.get k = v := by
  induction o with
  | nil => simp at hm
  | cons a l ih =>
    simp only [List.map_cons, List.nodup_cons] at hnd
    rcases List.mem_cons.mp hm with h | h
    · subst h
      simp [JsObj.get, List.find?_cons]
    · have hak : a.1 ≠ k := by
        intro hak
        exact hnd.1 (by
          rw [hak]
          exact List.mem_map.mpr ⟨(k, v), h, rfl⟩)
      have := ih hnd.2 h
      simpa [JsObj.get, List.find?_cons, hak] using this

/-- Reading a key just written. -/
theorem JsObj.get_set_self (o : JsObj) (k : String) (v : JsValue) :
    (o.set k v).get k = v := by
  unfold JsObj.set
  by_cases hk : o.hasKey k = true
  · simp only [hk, if_true]
    have hg : ∀ e : String × JsValue,
        (((fun e => if e.1 == k then (k, v) else e) e).1 == k) = (e.1 == k) := by
      intro e
      by_cases h : e.1 = k <;> simp [h]
    unfold JsObj.get
    rw [find?_map_pred hg]
    rw [JsObj.hasKey_eq_isSome] at hk
    obtain ⟨e, hf⟩ := Option.isSome_iff_exists.mp hk
    rw [hf]
    have := find?_key_eq hf
    simp [this]
  · simp only [Bool.not_eq_true] at hk
    simp only [hk, Bool.false_eq_true, if_false]
    unfold JsObj.get
    rw [List.find?_append]
    have hf : o.find? (fun e => e.1 == k) = none := by
      rw [JsObj.hasKey_eq_isSome] at hk
      cases hfind : o.find? (fun e => e.1 == k) with
      | none => rfl
      | some e => rw [hfind] at hk; simp at hk
    simp [hf, List.find?_cons]

/-- Reading another key after a write. -/
theorem JsObj.get_set_ne (o : JsObj) {k k' : String} (v : JsValue)
    (hne : k' ≠ k) : (o.set k v).get k' = o.get k' := by
  unfold JsObj.set
  by_cases hk : o.hasKey k = true
  · simp only [hk, if_true]
    have hg : ∀ e : String × JsValue,
        (((fun e => if e.1 == k then (k, v) else e) e).1 == k') = (e.1 == k') := by
      intro e
      by_cases h : e.1 = k
      · simp [h, Ne.symm hne]
      · simp [h]
    unfold JsObj.get
    rw [find?_map_pred hg]
    cases hf : o.find? (fun e => e.1 == k') with
    | none => rfl
    | some e =>
      have hke := find?_key_eq hf
      simp [hf, hke, hne]
  · simp only [Bool.not_eq_true] at hk
    simp only [hk, Bool.false_eq_true, if_false]
    unfold JsObj.get
    rw [List.find?_append]
    cases hf : o.find? (fun e => e.1 == k') with
    | some e => simp [hf]
    | none => simp [hf, List.find?_cons, Ne.symm hne]

theorem JsObj.get_cons (a : String × JsValue) (l : JsObj) (k : String) :
    JsObj.get (a :: l) k = if a.1 == k then a.2 else l.get k := by
  simp only [JsObj.get, List.find?_cons]
  cases h : (a.1 == k) <;> simp [h]

theorem JsObj.hasKey_cons (a : String × JsValue) (l : JsObj) (k : String) :
    JsObj.hasKey (a :: l) k = (a.1 == k || l.hasKey k) := by
  simp [JsObj.hasKey]

theorem JsObj.hasKey_filter_false {o : JsObj} {k : String}
    (h : o.hasKey k = false) (pred : String × JsValue → Bool) :
    JsObj.hasKey (o.filter pred) k = false := by
  rw [Bool.eq_false_iff] at h ⊢
  intro hc
  apply h
  have hm := JsObj.mem_get_of_hasKey hc
  have hm' := List.mem_of_mem_filter hm
  simp only [JsObj.hasKey, List.any_eq_true]
  exact ⟨_, hm', by simp⟩

/-- Reading a key off a filtered object with distinct keys. -/
theorem JsObj.get_filter (o : JsObj) (hnd : (o.map Prod.fst).Nodup)
    (pred : String × JsValue → Bool) (k : String) :
    JsObj.get (o.filter pred) k =
      if o.hasKey k then (if pred (k, o.get k) then o.get k else JsValue.undef)
      else JsValue.undef := by
  induction o with
  | nil => simp [JsObj.get, JsObj.hasKey]
  | cons a l ih =>
    simp only [List.map_cons, List.nodup_cons] at hnd
    have ihl := ih hnd.2
    rw [List.filter_cons]
    cases hak : (a.1 == k)
    · -- head key differs: everything reduces to the tail
      cases hpa : pred a <;>
        simp [JsObj.get_cons, JsObj.hasKey_cons, hak, ihl]
    · -- head key is `k`; by distinctness the tail has no `k`
      have hak' : a.1 = k := by simpa using hak
      have hlk : JsObj.hasKey l k = false := by
        rw [Bool.eq_false_iff]
        intro hc
        apply hnd.1
        rw [hak']
        exact List.mem_map.mpr ⟨_, JsObj.mem_get_of_hasKey hc, rfl⟩
      have ha : (k, a.2) = a := by
        cases a
        simp only at hak'
        simp [hak']
      cases hpa : pred a
      · have hfk := JsObj.hasKey_filter_false hlk pred
        rw [if_neg (by simp [hpa]), JsObj.get_of_not_hasKey hfk]
        simp [JsObj.hasKey_cons, JsObj.get_cons, hak, ha, hpa]
      · rw [if_pos (by simp [hpa])]
        simp [JsObj.get_cons, JsObj.hasKey_cons, hak, ha, hpa]

/-! ## Helper lemmas about the movement system -/

/-- `handleMoveStart` never changes the player's id. -/
theorem processMove_player_id (w : World) (now : ℚ) (p : Player) (dq : ℚ) :
    (processMove w now p dq).player.id = p.id := by
  simp only [processMove]
  cases w.maps p.mapId with
  | none => rfl
  | some m =>
    dsimp only
    split_ifs <;> simp [Player.updateCurSpeed]

theorem handleMoveStart_player_id (w : World) (now : ℚ) (p : Player) (pkt : HPacket) :
    (handleMoveStart w now p pkt).player.id = p.id := by
  unfold handleMoveStart
  split
  · rfl
  split
  · rfl
  split
  · split
    · rfl
    · exact processMove_player_id w now p pkt.d.toNum
  · exact processMove_player_id w now p pkt.d.toNum

/-- `handleMoveStart` touches `pendingMoves` only at the player's own key. -/
theorem processMove_pending_ne (w : World) (now : ℚ) (p : Player) (dq : ℚ)
    {k : String} (hk : k ≠ p.id) :
    (processMove w now p dq).pending k = w.pending k := by
  simp only [processMove]
  cases w.maps p.mapId with
  | none => rfl
  | some m =>
    dsimp only
    split_ifs <;> simp [setPending, hk]

theorem handleMoveStart_pending_ne (w : World) (now : ℚ) (p : Player)
    (pkt : HPacket) {k : String} (hk : k ≠ p.id) :
    (handleMoveStart w now p pkt).pending k = w.pending k := by
  unfold handleMoveStart
  split
  · rfl
  split
  · rfl
  split
  · split
    · rfl
    · exact processMove_pending_ne w now p pkt.d.toNum hk
  · exact processMove_pending_ne w now p pkt.d.toNum hk

/-- A mid-traversal player's move-start intent is a state no-op: either the
direction is invalid (correction only) or the `isMoving` early return fires. -/
theorem handleMoveStart_isMoving (w : World) (now : ℚ) (p : Player)
    (pkt : HPacket) (hm : p.isMoving = true) :
    (handleMoveStart w now p pkt).player = p ∧
    (handleMoveStart w now p pkt).pending = w.pending := by
  unfold handleMoveStart
  split
  · exact ⟨rfl, rfl⟩
  · simp [hm]

/-- `handleDirectionChange` changes at most the facing direction. -/
theorem handleDirectionChange_fields (p : Player) (d : JsValue) :
    (handleDirectionChange p d).1 = p ∨
    (handleDirectionChange p d).1 = { p with dir := d.toNum } := by
  unfold handleDirectionChange
  split
  · exact Or.inl rfl
  · exact Or.inr rfl

/-- `getPlayer` after replacing the stored object for some id. -/
theorem getPlayer_setPlayer (ps : List Player) (pid' : String) (v : Player)
    (hvid : v.id = pid') (pid : String) :
    (setPlayer ps pid' v).find? (fun p => p.id == pid) =
      (ps.find? (fun p => p.id == pid)).map (fun p => if p.id == pid' then v else p) := by
  unfold setPlayer
  apply find?_map_pred
  intro e
  by_cases h : e.id = pid'
  · simp [h, hvid]
  · simp [h]

/-- Unfolding `stepEvent` for a move-start packet whose player exists. -/
theorem stepEvent_hPkt (w : World) (pid : String) (pkt : HPacket) (now : ℚ)
    {p : Player} (hp : w.getPlayer pid = some p) :
    stepEvent w (.hPkt pid pkt now) =
      ({ w with players := setPlayer w.players pid (handleMoveStart w now p pkt).player,
                pending := (handleMoveStart w now p pkt).pending },
       (handleMoveStart w now p pkt).effects) := by
  simp only [stepEvent, hp]

/-- `getPlayer` through the per-tick movement update. -/
theorem getPlayer_movementUpdate (w : World) (now : ℚ) (pid : String) :
    (movementUpdate w now).getPlayer pid =
      (w.getPlayer pid).map (fun p => match w.pending p.id with
        | some t => if t ≤ now then finalizeMove p else p
        | none => p) := by
  unfold movementUpdate World.getPlayer
  apply find?_map_pred
  intro e
  cases h : w.pending e.id with
  | some t =>
    by_cases ht : t ≤ now <;> simp [h, ht, finalizeMove]
  | none => simp [h]

/-- The player state after an accepted move: facing set, previous position
recorded, mid-traversal, target tile occupied immediately, speed recomputed
from the destination tile, move timestamp stamped, input counter bumped. -/
def successPlayer (now : ℚ) (p : Player) (dq : ℚ) (m : GameMap) : Player :=
  let tX := p.x + (directionVector dq).1
  let tY := p.y + (directionVector dq).2
  let p1 : Player :=
    { p with dir := dq, fromX := p.x, fromY := p.y, isMoving := true,
             moveStartTime := now, x := tX, y := tY, lastMoveTime := now }
  let p2 := p1.updateCurSpeed (getTileSpeedModifier (m.getTile tX tY) m.tileSpeed)
  { p2 with inputSequence := p2.inputSequence + 1 }

/-- The accepted-move branch of `processMove`, in closed form. -/
theorem processMove_success (w : World) (now : ℚ) (p : Player) (dq : ℚ)
    (m : GameMap) (hmap : w.maps p.mapId = some m)
    (hwalk : m.isWalkable (p.x + (directionVector dq).1)
      (p.y + (directionVector dq).2) = true)
    (hocc : isTileOccupiedByEntity w (p.x + (directionVector dq).1)
      (p.y + (directionVector dq).2) p.mapId p.id = false)
    (hspeed : ¬(p.lastMoveTime > 0 ∧
      now - p.lastMoveTime < p.curSpeed * (1 - speedHackTolerance))) :
    processMove w now p dq =
      ⟨successPlayer now p dq m,
       setPending w.pending p.id (now + (successPlayer now p dq m).curSpeed),
       [.broadcastMove (p.x + (directionVector dq).1) (p.y + (directionVector dq).2)
          p.mapId p.id (p.x + (directionVector dq).1) (p.y + (directionVector dq).2)
          p.id]⟩ := by
  simp only [processMove, hmap]
  simp [hwalk, hocc, hspeed, successPlayer, Player.updateCurSpeed]

/-- The speed-hack rejection branch of `processMove`: correction sent, state
untouched. -/
theorem processMove_speedReject (w : World) (now : ℚ) (p : Player) (dq : ℚ)
    (m : GameMap) (hmap : w.maps p.mapId = some m)
    (hwalk : m.isWalkable (p.x + (directionVector dq).1)
      (p.y + (directionVector dq).2) = true)
    (hocc : isTileOccupiedByEntity w (p.x + (directionVector dq).1)
      (p.y + (directionVector dq).2) p.mapId p.id = false)
    (hlast : p.lastMoveTime > 0)
    (hfast : now - p.lastMoveTime < p.curSpeed * (1 - speedHackTolerance)) :
    processMove w now p dq = ⟨p, w.pending, [.correction p.id p.x p.y]⟩ := by
  simp only [processMove, hmap]
  simp [hwalk, hocc, hlast, hfast]

/-- The collision branches of `processMove` (unwalkable target or occupied
target): facing-only update, position untouched. -/
theorem processMove_faceOnly (w : World) (now : ℚ) (p : Player) (dq : ℚ)
    (m : GameMap) (hmap : w.maps p.mapId = some m)
    (hblocked : m.isWalkable (p.x + (directionVector dq).1)
        (p.y + (directionVector dq).2) = false ∨
      isTileOccupiedByEntity w (p.x + (directionVector dq).1)
        (p.y + (directionVector dq).2) p.mapId p.id = true) :
    processMove w now p dq =
      ⟨{ p with dir := dq }, w.pending,
       [.broadcastUpdate p.x p.y p.mapId p.id p.curSpeed dq p.x p.y]⟩ := by
  simp only [processMove, hmap]
  rcases hblocked with h | h
  · simp [h]
  · cases hw : m.isWalkable (p.x + (directionVector dq).1)
      (p.y + (directionVector dq).2) <;> simp [hw, h]

/-- After the direction, mid-traversal and position checks pass,
`handleMoveStart` is `processMove` on the server's own position, with a
silent correction prepended exactly when the claimed position differed. -/
theorem handleMoveStart_checks (w : World) (now : ℚ) (p : Player) (pkt : HPacket)
    (hd : isValidDirection pkt.d = true) (hm : p.isMoving = false)
    (hdist : manhattanDistance pkt.x pkt.y p.x p.y ≤ maxTeleportDistance) :
    handleMoveStart w now p pkt =
      ⟨(processMove w now p pkt.d.toNum).player,
       (processMove w now p pkt.d.toNum).pending,
       (if pkt.x = (p.x : ℚ) ∧ pkt.y = (p.y : ℚ) then []
        else [Effect.correction p.id p.x p.y])
         ++ (processMove w now p pkt.d.toNum).effects⟩ := by
  unfold handleMoveStart
  rw [if_neg (by simp [hd]), if_neg (by simp [hm])]
  by_cases hmm : pkt.x ≠ (p.x : ℚ) ∨ pkt.y ≠ (p.y : ℚ)
  · rw [if_pos hmm, if_neg (not_lt.mpr hdist)]
    have hne : ¬(pkt.x = (p.x : ℚ) ∧ pkt.y = (p.y : ℚ)) := by
      push_neg at hmm ⊢
      intro h
      rcases hmm with h' | h' <;> simp_all
    rw [if_neg hne]
    rfl
  · rw [if_neg hmm]
    push_neg at hmm
    rw [if_pos ⟨hmm.1, hmm.2⟩]
    rw [List.nil_append]

/-- A claimed position farther than the teleport tolerance: hard correction,
nothing else happens. -/
theorem handleMoveStart_teleportReject (w : World) (now : ℚ) (p : Player)
    (pkt : HPacket) (hd : isValidDirection pkt.d = true) (hm : p.isMoving = false)
    (hfar : manhattanDistance pkt.x pkt.y p.x p.y > maxTeleportDistance) :
    handleMoveStart w now p pkt = ⟨p, w.pending, [.correction p.id p.x p.y]⟩ := by
  unfold handleMoveStart
  rw [if_neg (by simp [hd]), if_neg (by simp [hm])]
  have hmm : pkt.x ≠ (p.x : ℚ) ∨ pkt.y ≠ (p.y : ℚ) := by
    by_contra h
    push_neg at h
    rw [h.1, h.2] at hfar
    simp [manhattanDistance, maxTeleportDistance] at hfar
    exact absurd hfar (by norm_num)
  rw [if_pos hmm, if_pos hfar]

/-! ## Concrete fixtures for witnesses and counterexamples -/

/-- A 100×100 all-grass map: every tile walkable, no modifiers, no objects. -/
def flatMap : GameMap :=
  ⟨100, 100, fun _ _ => 0, none, fun _ => none, fun _ => false⟩

/-- A player at tile (50,50) whose last accepted move was at t=1000 ms, with
the default 750 ms effective speed. -/
def basePlayer : Player :=
  ⟨"p1", 50, 50, 50, 50, 2, "overworld", 750, 0, 750, false, 0, 1000, 0⟩

/-- A second player standing on tile (51,50) of the same map. -/
def blockerPlayer : Player :=
  ⟨"p2", 51, 50, 51, 50, 2, "overworld", 750, 0, 750, false, 0, 0, 0⟩

/-- A world with the single player `basePlayer` on the flat map, no pending
moves, and a fresh anti-cheat history for them. -/
def baseWorld : World :=
  ⟨[basePlayer], [], fun s => if s = "overworld" then some flatMap else none,
   fun _ => none, ⟨fun s => if s = "p1" then some ⟨[], 0, 0⟩ else none⟩⟩

/-- `baseWorld` plus `blockerPlayer` occupying the tile east of `basePlayer`. -/
def occupiedWorld : World :=
  ⟨[basePlayer, blockerPlayer], [],
   fun s => if s = "overworld" then some flatMap else none,
   fun _ => none, ⟨fun s => if s = "p1" then some ⟨[], 0, 0⟩ else none⟩⟩

/-! ## Claim C3 -/

/-- C3: for a move-start intent from a non-moving participant with a valid
direction, a claimed position at Manhattan distance > 2 from the
authoritative position yields only a correction (move not applied, state
untouched); a differing claimed position at distance ≤ 2 yields the exact
same outcome as the same intent claimed at the authoritative position —
evaluation uses the server's position, not the client's — with a silent
correction prepended. -/
theorem moveStart_position_check (w : World) (now : ℚ) (p : Player)
    (pkt : HPacket) (hd : isValidDirection pkt.d = true)
    (hm : p.isMoving = false) :
    (manhattanDistance pkt.x pkt.y p.x p.y > 2 →
      handleMoveStart w now p pkt = ⟨p, w.pending, [.correction p.id p.x p.y]⟩) ∧
    ((pkt.x ≠ (p.x : ℚ) ∨ pkt.y ≠ (p.y : ℚ)) →
      manhattanDistance pkt.x pkt.y p.x p.y ≤ 2 →
      handleMoveStart w now p pkt =
        ⟨(handleMoveStart w now p ⟨(p.x : ℚ), (p.y : ℚ), pkt.d⟩).player,
         (handleMoveStart w now p ⟨(p.x : ℚ), (p.y : ℚ), pkt.d⟩).pending,
         Effect.correction p.id p.x p.y ::
           (handleMoveStart w now p ⟨(p.x : ℚ), (p.y : ℚ), pkt.d⟩).effects⟩) := by
  constructor
  · intro hfar
    exact handleMoveStart_teleportReject w now p pkt hd hm hfar
  · intro hmm hdist
    have h1 := handleMoveStart_checks w now p pkt hd hm hdist
    have h2 := handleMoveStart_checks w now p ⟨(p.x : ℚ), (p.y : ℚ), pkt.d⟩ hd hm
      (by simp [manhattanDistance, maxTeleportDistance])
    have hne : ¬(pkt.x = (p.x : ℚ) ∧ pkt.y = (p.y : ℚ)) := by
      rcases hmm with h | h <;> intro hc <;> exact h (by simp [hc.1, hc.2])
    rw [h1, h2]
    simp [hne]

/-- C3 witness: in the base world, a claim of (53,54) against authoritative
(50,50) (distance 7 > 2) yields a hard correction only; a claim of (51,50)
(distance 1 ≤ 2) yields the corrected-but-evaluated outcome. -/
theorem moveStart_position_check_witness :
    (handleMoveStart baseWorld 5000 basePlayer ⟨53, 54, .num 1⟩ =
      ⟨basePlayer, baseWorld.pending, [.correction "p1" 50 50]⟩) ∧
    (handleMoveStart baseWorld 5000 basePlayer ⟨51, 50, .num 1⟩ =
      ⟨(handleMoveStart baseWorld 5000 basePlayer ⟨50, 50, .num 1⟩).player,
       (handleMoveStart baseWorld 5000 basePlayer ⟨50, 50, .num 1⟩).pending,
       Effect.correction "p1" 50 50 ::
         (handleMoveStart baseWorld 5000 basePlayer ⟨50, 50, .num 1⟩).effects⟩) :=
  ⟨(moveStart_position_check baseWorld 5000 basePlayer ⟨53, 54, .num 1⟩
      (by decide) (by decide)).1 (by norm_num [manhattanDistance, basePlayer]),
   (moveStart_position_check baseWorld 5000 basePlayer ⟨51, 50, .num 1⟩
      (by decide) (by decide)).2 (by norm_num [basePlayer])
      (by norm_num [manhattanDistance, basePlayer])⟩

/-! ## Claim C4 -/

/-- C4: once the direction, position, walkability and occupancy checks pass
and a previous accepted-move timestamp exists, the move is rejected (state
untouched, correction sent) exactly when the elapsed time since the last
accepted move is strictly below `curSpeed * (1 - 0.15)`, and otherwise is
accepted (position advanced, traversal started). -/
theorem moveStart_speed_check (w : World) (now : ℚ) (p : Player)
    (pkt : HPacket) (m : GameMap)
    (hd : isValidDirection pkt.d = true) (hm : p.isMoving = false)
    (hdist : manhattanDistance pkt.x pkt.y p.x p.y ≤ maxTeleportDistance)
    (hmap : w.maps p.mapId = some m)
    (hwalk : m.isWalkable (p.x + (directionVector pkt.d.toNum).1)
      (p.y + (directionVector pkt.d.toNum).2) = true)
    (hocc : isTileOccupiedByEntity w (p.x + (directionVector pkt.d.toNum).1)
      (p.y + (directionVector pkt.d.toNum).2) p.mapId p.id = false)
    (hlast : p.lastMoveTime > 0) :
    (now - p.lastMoveTime < p.curSpeed * (1 - speedHackTolerance) →
      (handleMoveStart w now p pkt).player = p ∧
      (handleMoveStart w now p pkt).pending = w.pending ∧
      Effect.correction p.id p.x p.y ∈ (handleMoveStart w now p pkt).effects) ∧
    (p.curSpeed * (1 - speedHackTolerance) ≤ now - p.lastMoveTime →
      (handleMoveStart w now p pkt).player = successPlayer now p pkt.d.toNum m ∧
      (handleMoveStart w now p pkt).player.x =
        p.x + (directionVector pkt.d.toNum).1 ∧
      (handleMoveStart w now p pkt).player.y =
        p.y + (directionVector pkt.d.toNum).2 ∧
      (handleMoveStart w now p pkt).player.isMoving = true ∧
      (handleMoveStart w now p pkt).pending =
        setPending w.pending p.id
          (now + (successPlayer now p pkt.d.toNum m).curSpeed)) := by
  have hc := handleMoveStart_checks w now p pkt hd hm hdist
  constructor
  · intro hfast
    rw [hc, processMove_speedReject w now p pkt.d.toNum m hmap hwalk hocc hlast hfast]
    refine ⟨rfl, rfl, ?_⟩
    simp
  · intro hslow
    have hspeed : ¬(p.lastMoveTime > 0 ∧
        now - p.lastMoveTime < p.curSpeed * (1 - speedHackTolerance)) := by
      intro hcon
      exact absurd hcon.2 (not_lt.mpr hslow)
    rw [hc, processMove_success w now p pkt.d.toNum m hmap hwalk hocc hspeed]
    refine ⟨rfl, ?_, ?_, ?_, rfl⟩ <;> simp [successPlayer, Player.updateCurSpeed]

/-- C4 witness: effective speed 750 ms and last move at t=1000 ms — a second
move-start at t=1600 (600 ms elapsed < 637.5) is rejected with a correction,
one at t=1650 (650 ms elapsed) is accepted and advances x from 50 to 51. -/
theorem moveStart_speed_check_witness :
    ((handleMoveStart baseWorld 1600 basePlayer ⟨50, 50, .num 1⟩).player =
        basePlayer ∧
      (handleMoveStart baseWorld 1600 basePlayer ⟨50, 50, .num 1⟩).pending =
        baseWorld.pending ∧
      Effect.correction "p1" 50 50 ∈
        (handleMoveStart baseWorld 1600 basePlayer ⟨50, 50, .num 1⟩).effects) ∧
    ((handleMoveStart baseWorld 1650 basePlayer ⟨50, 50, .num 1⟩).player.x = 51 ∧
      (handleMoveStart baseWorld 1650 basePlayer ⟨50, 50, .num 1⟩).player.isMoving =
        true) := by
  constructor
  · exact (moveStart_speed_check baseWorld 1600 basePlayer ⟨50, 50, .num 1⟩ flatMap
      (by decide) (by decide)
      (by norm_num [manhattanDistance, basePlayer, maxTeleportDistance])
      rfl (by decide) (by decide)
      (by norm_num [basePlayer])).1
      (by norm_num [basePlayer, speedHackTolerance])
  · have h := (moveStart_speed_check baseWorld 1650 basePlayer ⟨50, 50, .num 1⟩ flatMap
      (by decide) (by decide)
      (by norm_num [manhattanDistance, basePlayer, maxTeleportDistance])
      rfl (by decide) (by decide)
      (by norm_num [basePlayer])).2
      (by norm_num [basePlayer, speedHackTolerance])
    exact ⟨by rw [h.2.1]; decide, by rw [h.2.2.2.1]⟩

/-! ## Claim C5 -/

/-- C5: a move-start from a non-moving participant (valid direction, claimed
position within tolerance) whose target tile is occupied by another
participant or mob on the same map degrades to a facing update only: the
facing direction is set and broadcast, while x, y, fromX, fromY, isMoving,
lastMoveTime and the pending-move map are all unchanged. -/
theorem moveStart_occupied_faceOnly (w : World) (now : ℚ) (p : Player)
    (pkt : HPacket) (m : GameMap)
    (hd : isValidDirection pkt.d = true) (hm : p.isMoving = false)
    (hdist : manhattanDistance pkt.x pkt.y p.x p.y ≤ maxTeleportDistance)
    (hmap : w.maps p.mapId = some m)
    (hocc : isTileOccupiedByEntity w (p.x + (directionVector pkt.d.toNum).1)
      (p.y + (directionVector pkt.d.toNum).2) p.mapId p.id = true) :
    (handleMoveStart w now p pkt).player.dir = pkt.d.toNum ∧
    (handleMoveStart w now p pkt).player.x = p.x ∧
    (handleMoveStart w now p pkt).player.y = p.y ∧
    (handleMoveStart w now p pkt).player.fromX = p.fromX ∧
    (handleMoveStart w now p pkt).player.fromY = p.fromY ∧
    (handleMoveStart w now p pkt).player.isMoving = p.isMoving ∧
    (handleMoveStart w now p pkt).player.lastMoveTime = p.lastMoveTime ∧
    (handleMoveStart w now p pkt).pending = w.pending ∧
    Effect.broadcastUpdate p.x p.y p.mapId p.id p.curSpeed pkt.d.toNum p.x p.y ∈
      (handleMoveStart w now p pkt).effects := by
  rw [handleMoveStart_checks w now p pkt hd hm hdist,
    processMove_faceOnly w now p pkt.d.toNum m hmap (Or.inr hocc)]
  refine ⟨rfl, rfl, rfl, rfl, rfl, rfl, rfl, rfl, ?_⟩
  simp

/-- C5 witness: `basePlayer` at (50,50) intends RIGHT onto (51,50), which
`blockerPlayer` occupies on the same map: facing becomes 1, nothing moves. -/
theorem moveStart_occupied_faceOnly_witness :
    (handleMoveStart occupiedWorld 5000 basePlayer ⟨50, 50, .num 1⟩).player.dir = 1 ∧
    (handleMoveStart occupiedWorld 5000 basePlayer ⟨50, 50, .num 1⟩).player.x = 50 ∧
    (handleMoveStart occupiedWorld 5000 basePlayer ⟨50, 50, .num 1⟩).player.y = 50 ∧
    (handleMoveStart occupiedWorld 5000 basePlayer ⟨50, 50, .num 1⟩).player.fromX = 50 ∧
    (handleMoveStart occupiedWorld 5000 basePlayer ⟨50, 50, .num 1⟩).player.fromY = 50 ∧
    (handleMoveStart occupiedWorld 5000 basePlayer ⟨50, 50, .num 1⟩).player.isMoving = false ∧
    (handleMoveStart occupiedWorld 5000 basePlayer ⟨50, 50, .num 1⟩).player.lastMoveTime = 1000 ∧
    (handleMoveStart occupiedWorld 5000 basePlayer ⟨50, 50, .num 1⟩).pending = occupiedWorld.pending ∧
    Effect.broadcastUpdate 50 50 "overworld" "p1" 750 1 50 50 ∈
      (handleMoveStart occupiedWorld 5000 basePlayer ⟨50, 50, .num 1⟩).effects :=
  moveStart_occupied_faceOnly occupiedWorld 5000 basePlayer ⟨50, 50, .num 1⟩ flatMap
    (by decide) (by decide)
    (by norm_num [manhattanDistance, basePlayer, maxTeleportDistance])
    rfl (by decide)

/-! ## Claim C1 -/

/-- Small step lemma: `handleDirectionChange` never changes id, position,
interpolation origin, movement flag or timing. -/
theorem handleDirectionChange_preserves (p : Player) (d : JsValue) :
    (handleDirectionChange p d).1.id = p.id ∧
    (handleDirectionChange p d).1.x = p.x ∧
    (handleDirectionChange p d).1.y = p.y ∧
    (handleDirectionChange p d).1.fromX = p.fromX ∧
    (handleDirectionChange p d).1.fromY = p.fromY ∧
    (handleDirectionChange p d).1.isMoving = p.isMoving := by
  unfold handleDirectionChange
  split <;> exact ⟨rfl, rfl, rfl, rfl, rfl, rfl⟩

/-- C1 counterexample: in `baseWorld`, receiving one `h` packet — an event
that is not a tick — moves the authoritative x of "p1" from 50 to 51.  The
write happens synchronously in the packet path (`PacketRouter` dispatching
to `MovementSystem.handleMoveStart`), not in the tick update step. -/
theorem position_written_on_receipt_cex :
    (baseWorld.getPlayer "p1").map Player.x = some 50 ∧
    ((stepEvent baseWorld (.hPkt "p1" ⟨50, 50, .num 1⟩ 5000)).1.getPlayer "p1").map
        Player.x = some 51 := by
  constructor
  · decide
  · norm_num [stepEvent, handleMoveStart, processMove, baseWorld, basePlayer,
      flatMap, manhattanDistance, maxTeleportDistance, speedHackTolerance,
      isValidDirection, directionVector, Player.updateCurSpeed,
      getTileSpeedModifier, GameMap.isWalkable, GameMap.getTile,
      GameMap.inBounds, isTileWalkable, BLOCKED_TILES, getKey,
      isTileOccupiedByEntity, setPlayer, setPending, World.getPlayer,
      JsValue.toNum, List.find?]

/-- C1 amended: the tick update step never writes any participant's
authoritative position — it only finalizes pending moves — and face-only
packets never write it either; the position write for an accepted move
happens synchronously in the move-start packet handler instead. -/
theorem position_never_written_by_tick (w : World) (pid : String) :
    (∀ now : ℚ,
      (((stepEvent w (.tick now)).1.getPlayer pid).map (fun p => (p.x, p.y))) =
        ((w.getPlayer pid).map (fun p => (p.x, p.y)))) ∧
    (∀ (pid' : String) (d : JsValue) (now : ℚ),
      (((stepEvent w (.mPkt pid' d now)).1.getPlayer pid).map (fun p => (p.x, p.y))) =
        ((w.getPlayer pid).map (fun p => (p.x, p.y)))) := by
  constructor
  · intro now
    show ((movementUpdate w now).getPlayer pid).map _ = _
    rw [getPlayer_movementUpdate]
    cases hq : w.getPlayer pid with
    | none => rfl
    | some q =>
      simp only [Option.map_some']
      cases hp : w.pending q.id with
      | none => rfl
      | some t =>
        by_cases ht : t ≤ now
        · simp [ht, finalizeMove]
        · simp [ht]
  · intro pid' d now
    cases hq' : w.getPlayer pid' with
    | none => simp [stepEvent, hq']
    | some p' =>
      have hpid' : p'.id = pid' := by
        have := List.find?_some hq'
        simpa using this
      have hrid : (handleDirectionChange p' d).1.id = pid' := by
        rw [(handleDirectionChange_preserves p' d).1, hpid']
      simp only [stepEvent, hq']
      show ((setPlayer w.players pid'
          (handleDirectionChange p' d).1).find? (fun p => p.id == pid)).map
          (fun p => (p.x, p.y)) =
        (w.players.find? (fun p => p.id == pid)).map (fun p => (p.x, p.y))
      rw [getPlayer_setPlayer _ _ _ hrid]
      cases hfind : w.players.find? (fun p => p.id == pid) with
      | none => rfl
      | some q =>
        simp only [Option.map_some']
        by_cases hqq : q.id = pid'
        · have hqid : q.id = pid := by
            have := List.find?_some hfind
            simpa using this
          have hpe : pid = pid' := by rw [← hqid, hqq]
          have hq'q : p' = q := by
            rw [World.getPlayer, ← hpe] at hq'
            rw [hfind] at hq'
            exact (Option.some.injEq _ _).mp hq' |>.symm
          have hpr := handleDirectionChange_preserves p' d
          simp only [hqq, beq_self_eq_true, if_true, Option.some.injEq]
          rw [← hq'q]
          exact Prod.ext hpr.2.1 hpr.2.2.1
        · simp [hqq]

/-! ## Claim C2 -/

/-- The violation counter recorded for a participant, as an observation on
the world. -/
def violationsOf (w : World) (pid : String) : Option ℕ :=
  (w.antiCheat.playerHistory pid).map ACEntry.violations

/-- C2 counterexample: in `baseWorld` (last move at t=1000, speed 750), an
`h` packet at t=1600 is rejected as a speed hack — the only send is a
correction and the player state is untouched — yet the anti-cheat violation
counter stays 0 instead of being incremented to 1: the movement path never
consults the `AntiCheat` monitor. -/
theorem speedHack_no_violation_increment_cex :
    (stepEvent baseWorld (.hPkt "p1" ⟨50, 50, .num 1⟩ 1600)).2 =
      [.correction "p1" 50 50] ∧
    ((stepEvent baseWorld (.hPkt "p1" ⟨50, 50, .num 1⟩ 1600)).1.getPlayer "p1" =
      some basePlayer) ∧
    violationsOf baseWorld "p1" = some 0 ∧
    violationsOf (stepEvent baseWorld (.hPkt "p1" ⟨50, 50, .num 1⟩ 1600)).1 "p1" =
      some 0 ∧
    violationsOf (stepEvent baseWorld (.hPkt "p1" ⟨50, 50, .num 1⟩ 1600)).1 "p1" ≠
      some (0 + 1) := by
  refine ⟨?_, ?_, by decide, by decide, by decide⟩ <;>
    norm_num [stepEvent, handleMoveStart, processMove, baseWorld, basePlayer,
      flatMap, manhattanDistance, maxTeleportDistance, speedHackTolerance,
      isValidDirection, directionVector, Player.updateCurSpeed,
      getTileSpeedModifier, GameMap.isWalkable, GameMap.getTile,
      GameMap.inBounds, isTileWalkable, BLOCKED_TILES, getKey,
      isTileOccupiedByEntity, setPlayer, setPending, World.getPlayer,
      JsValue.toNum, List.find?]

/-- C2 amended: whenever a move-start intent is rejected as a speed-hack
violation, the participant is sent a position correction and the move is not
applied (player state, pending moves unchanged) — but the anti-cheat
violation counter is NOT incremented: the whole `AntiCheat` state is
untouched, because `MovementSystem.handleMoveStart` performs its own inline
speed check and never calls `AntiCheat.detectSpeedHack`. -/
theorem speedHack_rejection_outcome (w : World) (now : ℚ) (pid : String)
    (pkt : HPacket) (p : Player) (m : GameMap)
    (hp : w.getPlayer pid = some p)
    (hd : isValidDirection pkt.d = true) (hm : p.isMoving = false)
    (hdist : manhattanDistance pkt.x pkt.y p.x p.y ≤ maxTeleportDistance)
    (hmap : w.maps p.mapId = some m)
    (hwalk : m.isWalkable (p.x + (directionVector pkt.d.toNum).1)
      (p.y + (directionVector pkt.d.toNum).2) = true)
    (hocc : isTileOccupiedByEntity w (p.x + (directionVector pkt.d.toNum).1)
      (p.y + (directionVector pkt.d.toNum).2) p.mapId p.id = false)
    (hlast : p.lastMoveTime > 0)
    (hfast : now - p.lastMoveTime < p.curSpeed * (1 - speedHackTolerance)) :
    Effect.correction p.id p.x p.y ∈ (stepEvent w (.hPkt pid pkt now)).2 ∧
    (stepEvent w (.hPkt pid pkt now)).1.getPlayer pid = some p ∧
    (stepEvent w (.hPkt pid pkt now)).1.pending = w.pending ∧
    (stepEvent w (.hPkt pid pkt now)).1.antiCheat = w.antiCheat := by
  have hpid : p.id = pid := by
    have := List.find?_some hp
    simpa using this
  have hres := handleMoveStart_checks w now p pkt hd hm hdist
  have hrej := processMove_speedReject w now p pkt.d.toNum m hmap hwalk hocc hlast hfast
  rw [stepEvent_hPkt w pid pkt now hp]
  refine ⟨?_, ?_, ?_, rfl⟩
  · show Effect.correction p.id p.x p.y ∈ (handleMoveStart w now p pkt).effects
    rw [hres, hrej]
    simp
  · show ((setPlayer w.players pid (handleMoveStart w now p pkt).player).find?
      (fun q => q.id == pid)) = some p
    rw [getPlayer_setPlayer _ _ _ (by rw [handleMoveStart_player_id]; exact hpid)]
    rw [show (w.players.find? (fun q => q.id == pid)) = some p from hp]
    rw [hres, hrej]
    simp [hpid]
  · show (handleMoveStart w now p pkt).pending = w.pending
    rw [hres, hrej]

/-- C2 amended, witness: the concrete rejection of the counterexample,
obtained through the amended theorem. -/
theorem speedHack_rejection_outcome_witness :
    Effect.correction "p1" 50 50 ∈
      (stepEvent baseWorld (.hPkt "p1" ⟨50, 50, .num 1⟩ 1600)).2 ∧
    (stepEvent baseWorld (.hPkt "p1" ⟨50, 50, .num 1⟩ 1600)).1.getPlayer "p1" =
      some basePlayer ∧
    (stepEvent baseWorld (.hPkt "p1" ⟨50, 50, .num 1⟩ 1600)).1.pending =
      baseWorld.pending ∧
    (stepEvent baseWorld (.hPkt "p1" ⟨50, 50, .num 1⟩ 1600)).1.antiCheat =
      baseWorld.antiCheat :=
  speedHack_rejection_outcome baseWorld 1600 "p1" ⟨50, 50, .num 1⟩ basePlayer
    flatMap rfl (by decide) (by decide)
    (by norm_num [manhattanDistance, basePlayer, maxTeleportDistance])
    rfl (by decide) (by decide) (by norm_num [basePlayer])
    (by norm_num [basePlayer, speedHackTolerance])

/-! ## Claim C7 -/

/-- An event that cannot complete a pending move scheduled for time `T`:
any packet, or a tick strictly before `T`. -/
def TickBefore (T : ℚ) : Event → Prop
  | .tick n => n < T
  | _ => True

/-- "Participant `pid` is mid-traversal": the stored player is moving, its
interpolation origin is `(a, b)`, its authoritative position is `(c, d)`,
and its pending move completes at `T`. -/
def MovingInv (pid : String) (a b c d : ℤ) (T : ℚ) (w : World) : Prop :=
  ∃ q : Player, w.getPlayer pid = some q ∧ q.isMoving = true ∧
    q.fromX = a ∧ q.fromY = b ∧ q.x = c ∧ q.y = d ∧ w.pending pid = some T

/-- The mid-traversal invariant survives every event that does not reach the
pending move's completion time. -/
theorem movingInv_step (pid : String) (a b c d : ℤ) (T : ℚ) (w : World)
    (e : Event) (hi : MovingInv pid a b c d T w) (he : TickBefore T e) :
    MovingInv pid a b c d T (stepEvent w e).1 := by
  obtain ⟨q, hq, hmov, hfa, hfb, hxc, hyd, hpend⟩ := hi
  have hqid : q.id = pid := by
    have := List.find?_some hq
    simpa using this
  cases e with
  | hPkt pid' pkt now =>
    cases hp' : w.getPlayer pid' with
    | none =>
      have hw : (stepEvent w (.hPkt pid' pkt now)).1 = w := by
        simp [stepEvent, hp']
      rw [hw]
      exact ⟨q, hq, hmov, hfa, hfb, hxc, hyd, hpend⟩
    | some p' =>
      have hp'id : p'.id = pid' := by
        have := List.find?_some hp'
        simpa using this
      have hqf : w.players.find? (fun r => r.id == pid) = some q := hq
      rw [stepEvent_hPkt w pid' pkt now hp']
      have hrid : (handleMoveStart w now p' pkt).player.id = pid' := by
        rw [handleMoveStart_player_id]; exact hp'id
      by_cases hpe : pid = pid'
      · -- the mover's own packet: it is mid-traversal, so the handler is a
        -- state no-op
        have hq'p : p' = q := by
          rw [← hpe] at hp'
          rw [hq] at hp'
          exact (Option.some.injEq _ _).mp hp' |>.symm
        have hnoop := handleMoveStart_isMoving w now p' pkt (hq'p ▸ hmov)
        refine ⟨q, ?_, hmov, hfa, hfb, hxc, hyd, ?_⟩
        · show ((setPlayer w.players pid' (handleMoveStart w now p' pkt).player).find?
            (fun r => r.id == pid)) = some q
          rw [getPlayer_setPlayer _ _ _ hrid, hqf]
          simp only [Option.map_some']
          rw [hnoop.1, hq'p]
          simp
        · show (handleMoveStart w now p' pkt).pending pid = some T
          rw [hnoop.2]
          exact hpend
      · -- someone else's packet: it cannot touch `pid`'s entry
        refine ⟨q, ?_, hmov, hfa, hfb, hxc, hyd, ?_⟩
        · show ((setPlayer w.players pid' (handleMoveStart w now p' pkt).player).find?
            (fun r => r.id == pid)) = some q
          rw [getPlayer_setPlayer _ _ _ hrid, hqf]
          have : ¬(q.id = pid') := by rw [hqid]; exact hpe
          simp [this]
        · show (handleMoveStart w now p' pkt).pending pid = some T
          rw [handleMoveStart_pending_ne w now p' pkt (by rw [hp'id]; exact hpe)]
          exact hpend
  | mPkt pid' dv now =>
    cases hp' : w.getPlayer pid' with
    | none =>
      have hw : (stepEvent w (.mPkt pid' dv now)).1 = w := by
        simp [stepEvent, hp']
      rw [hw]
      exact ⟨q, hq, hmov, hfa, hfb, hxc, hyd, hpend⟩
    | some p' =>
      have hp'id : p'.id = pid' := by
        have := List.find?_some hp'
        simpa using this
      have hqf : w.players.find? (fun r => r.id == pid) = some q := hq
      have hpr := handleDirectionChange_preserves p' dv
      have hrid : (handleDirectionChange p' dv).1.id = pid' := by
        rw [hpr.1]; exact hp'id
      simp only [stepEvent, hp']
      by_cases hpe : pid = pid'
      · have hq'p : p' = q := by
          rw [← hpe] at hp'
          rw [hq] at hp'
          exact (Option.some.injEq _ _).mp hp' |>.symm
        refine ⟨(handleDirectionChange p' dv).1, ?_, ?_, ?_, ?_, ?_, ?_, hpend⟩
        · show ((setPlayer w.players pid' (handleDirectionChange p' dv).1).find?
            (fun r => r.id == pid)) = some (handleDirectionChange p' dv).1
          rw [getPlayer_setPlayer _ _ _ hrid, hqf]
          simp [hqid, hpe]
        · rw [hpr.2.2.2.2.2, hq'p, hmov]
        · rw [hpr.2.2.2.1, hq'p, hfa]
        · rw [hpr.2.2.2.2.1, hq'p, hfb]
        · rw [hpr.2.1, hq'p, hxc]
        · rw [hpr.2.2.1, hq'p, hyd]
      · refine ⟨q, ?_, hmov, hfa, hfb, hxc, hyd, hpend⟩
        show ((setPlayer w.players pid' (handleDirectionChange p' dv).1).find?
          (fun r => r.id == pid)) = some q
        rw [getPlayer_setPlayer _ _ _ hrid, hqf]
        have : ¬(q.id = pid') := by rw [hqid]; exact hpe
        simp [this]
  | tick now =>
    have hlt : now < T := he
    refine ⟨q, ?_, hmov, hfa, hfb, hxc, hyd, ?_⟩
    · show ((movementUpdate w now).getPlayer pid) = some q
      rw [getPlayer_movementUpdate, hq]
      simp only [Option.map_some']
      rw [hqid, hpend]
      simp [not_le.mpr hlt]
    · show (movementUpdate w now).pending pid = some T
      show (match w.pending pid with
        | some t => if t ≤ now then none else some t
        | none => none) = some T
      rw [hpend]
      simp [not_le.mpr hlt]

/-- The mid-traversal invariant survives any run of such events. -/
theorem movingInv_run (pid : String) (a b c d : ℤ) (T : ℚ) (w : World)
    (es : List Event) (hi : MovingInv pid a b c d T w)
    (hes : ∀ e ∈ es, TickBefore T e) :
    MovingInv pid a b c d T (runEvents w es) := by
  induction es generalizing w with
  | nil => exact hi
  | cons e es ih =>
    have hstep := movingInv_step pid a b c d T w e hi (hes e (List.mem_cons_self e es))
    exact ih (stepEvent w e).1 hstep (fun e' he' => hes e' (List.mem_cons_of_mem e he'))

/-- C7: an accepted move sets `fromX,fromY` to the pre-move position and the
authoritative position to the target tile; these hold through every packet
and every tick that fires before the scheduled completion time
`now + curSpeed'`; the first tick at or after that time sets `fromX,fromY`
to the new position and clears the movement flag. -/
theorem acceptedMove_from_position_lifecycle (w : World) (now : ℚ)
    (pid : String) (pkt : HPacket) (p : Player) (m : GameMap)
    (hp : w.getPlayer pid = some p)
    (hd : isValidDirection pkt.d = true) (hm : p.isMoving = false)
    (hdist : manhattanDistance pkt.x pkt.y p.x p.y ≤ maxTeleportDistance)
    (hmap : w.maps p.mapId = some m)
    (hwalk : m.isWalkable (p.x + (directionVector pkt.d.toNum).1)
      (p.y + (directionVector pkt.d.toNum).2) = true)
    (hocc : isTileOccupiedByEntity w (p.x + (directionVector pkt.d.toNum).1)
      (p.y + (directionVector pkt.d.toNum).2) p.mapId p.id = false)
    (hspeed : ¬(p.lastMoveTime > 0 ∧
      now - p.lastMoveTime < p.curSpeed * (1 - speedHackTolerance))) :
    (MovingInv pid p.x p.y (p.x + (directionVector pkt.d.toNum).1)
      (p.y + (directionVector pkt.d.toNum).2)
      (now + (successPlayer now p pkt.d.toNum m).curSpeed)
      (stepEvent w (.hPkt pid pkt now)).1) ∧
    (∀ es : List Event,
      (∀ e ∈ es, TickBefore (now + (successPlayer now p pkt.d.toNum m).curSpeed) e) →
      MovingInv pid p.x p.y (p.x + (directionVector pkt.d.toNum).1)
        (p.y + (directionVector pkt.d.toNum).2)
        (now + (successPlayer now p pkt.d.toNum m).curSpeed)
        (runEvents (stepEvent w (.hPkt pid pkt now)).1 es)) ∧
    (∀ (es : List Event) (now' : ℚ),
      (∀ e ∈ es, TickBefore (now + (successPlayer now p pkt.d.toNum m).curSpeed) e) →
      now + (successPlayer now p pkt.d.toNum m).curSpeed ≤ now' →
      ∃ q : Player,
        (stepEvent (runEvents (stepEvent w (.hPkt pid pkt now)).1 es)
          (.tick now')).1.getPlayer pid = some q ∧
        q.fromX = p.x + (directionVector pkt.d.toNum).1 ∧
        q.fromY = p.y + (directionVector pkt.d.toNum).2 ∧
        q.isMoving = false) := by
  have hpid : p.id = pid := by
    have := List.find?_some hp
    simpa using this
  have hres := handleMoveStart_checks w now p pkt hd hm hdist
  have hsucc := processMove_success w now p pkt.d.toNum m hmap hwalk hocc hspeed
  have hsp : (handleMoveStart w now p pkt).player = successPlayer now p pkt.d.toNum m := by
    rw [hres, hsucc]
  have hspend : (handleMoveStart w now p pkt).pending =
      setPending w.pending p.id (now + (successPlayer now p pkt.d.toNum m).curSpeed) := by
    rw [hres, hsucc]
  have hstart : MovingInv pid p.x p.y (p.x + (directionVector pkt.d.toNum).1)
      (p.y + (directionVector pkt.d.toNum).2)
      (now + (successPlayer now p pkt.d.toNum m).curSpeed)
      (stepEvent w (.hPkt pid pkt now)).1 := by
    rw [stepEvent_hPkt w pid pkt now hp]
    refine ⟨successPlayer now p pkt.d.toNum m, ?_, ?_, ?_, ?_, ?_, ?_, ?_⟩
    · show ((setPlayer w.players pid (handleMoveStart w now p pkt).player).find?
        (fun r => r.id == pid)) = some (successPlayer now p pkt.d.toNum m)
      have hpf : w.players.find? (fun r => r.id == pid) = some p := hp
      rw [getPlayer_setPlayer _ _ _ (by rw [handleMoveStart_player_id]; exact hpid), hpf]
      simp [hpid, hsp]
    · simp [successPlayer, Player.updateCurSpeed]
    · simp [successPlayer, Player.updateCurSpeed]
    · simp [successPlayer, Player.updateCurSpeed]
    · simp [successPlayer, Player.updateCurSpeed]
    · simp [successPlayer, Player.updateCurSpeed]
    · show (handleMoveStart w now p pkt).pending pid = _
      rw [hspend]
      simp [setPending, hpid]
  refine ⟨hstart, fun es hes => movingInv_run _ _ _ _ _ _ _ es hstart hes, ?_⟩
  intro es now' hes hT
  have hinv := movingInv_run _ _ _ _ _ _ _ es hstart hes
  obtain ⟨q, hq, hmov, hfa, hfb, hxc, hyd, hpend⟩ := hinv
  have hqid : q.id = pid := by
    have := List.find?_some hq
    simpa using this
  refine ⟨finalizeMove q, ?_, ?_, ?_, rfl⟩
  · show ((movementUpdate _ now').getPlayer pid) = some (finalizeMove q)
    rw [getPlayer_movementUpdate, hq]
    simp only [Option.map_some']
    rw [hqid, hpend]
    simp [hT]
  · show q.x = _
    exact hxc
  · show q.y = _
    exact hyd

/-- C7 witness: in the base world, the move accepted at t=5000 completes at
t=5750; after a tick at t=5500 the origin is still (50,50) and the player is
mid-traversal at (51,50), and the tick at t=6000 finalizes it. -/
theorem acceptedMove_from_position_lifecycle_witness :
    MovingInv "p1" 50 50 51 50
      (5000 + (successPlayer 5000 basePlayer (JsValue.num 1).toNum flatMap).curSpeed)
      (runEvents (stepEvent baseWorld (.hPkt "p1" ⟨50, 50, .num 1⟩ 5000)).1
        [.tick 5500]) ∧
    ∃ q : Player,
      (stepEvent (runEvents (stepEvent baseWorld (.hPkt "p1" ⟨50, 50, .num 1⟩ 5000)).1
          [.tick 5500]) (.tick 6000)).1.getPlayer "p1" = some q ∧
      q.fromX = 51 ∧ q.fromY = 50 ∧ q.isMoving = false := by
  have hT : (5000 : ℚ) + (successPlayer 5000 basePlayer (JsValue.num 1).toNum
      flatMap).curSpeed = 5750 := by
    norm_num [successPlayer, Player.updateCurSpeed, basePlayer, flatMap,
      getTileSpeedModifier, GameMap.getTile, GameMap.inBounds, directionVector,
      JsValue.toNum]
  have h := acceptedMove_from_position_lifecycle baseWorld 5000 "p1"
    ⟨50, 50, .num 1⟩ basePlayer flatMap rfl (by decide) (by decide)
    (by norm_num [manhattanDistance, basePlayer, maxTeleportDistance])
    rfl (by decide) (by decide)
    (by norm_num [basePlayer, speedHackTolerance])
  have hticks : ∀ e ∈ ([Event.tick 5500] : List Event),
      TickBefore (5000 + (successPlayer 5000 basePlayer (JsValue.num 1).toNum
        flatMap).curSpeed) e := by
    intro e he
    rcases List.mem_singleton.mp he with rfl
    show (5500 : ℚ) < _
    rw [hT]
    norm_num
  refine ⟨h.2.1 [.tick 5500] hticks, ?_⟩
  obtain ⟨q, hq, hfa, hfb, hmov⟩ := h.2.2 [.tick 5500] 6000 hticks
    (by rw [hT]; norm_num)
  exact ⟨q, hq, by rw [hfa]; decide, by rw [hfb]; decide, hmov⟩

/-! ## Claim C9 -/

/-- C9: `detectSpeedHack` returns `false` and leaves the whole tracking
state (violation counter included) unchanged whenever the participant has no
history entry or fewer than two recorded samples; in particular, the first
recorded move of a session (init followed by one `recordMove`) is never
flagged. -/
theorem detectSpeedHack_insufficient_history (st : ACState) (pid : String)
    (expectedSpeed : ℚ) :
    (st.playerHistory pid = none →
      st.detectSpeedHack pid expectedSpeed = (false, st)) ∧
    (∀ h : ACEntry, st.playerHistory pid = some h → h.positions.length < 2 →
      st.detectSpeedHack pid expectedSpeed = (false, st)) ∧
    (∀ (st0 : ACState) (x y : ℤ) (now : ℚ),
      ((st0.initPlayer pid).recordMove pid x y now).detectSpeedHack pid
        expectedSpeed =
        (false, (st0.initPlayer pid).recordMove pid x y now)) := by
  refine ⟨?_, ?_, ?_⟩
  · intro h
    simp [ACState.detectSpeedHack, h]
  · intro h hh hlen
    have hrl : h.positions.reverse.length < 2 := by simpa using hlen
    simp only [ACState.detectSpeedHack, hh]
    rcases hrev : h.positions.reverse with _ | ⟨a, _ | ⟨b, t⟩⟩
    · rfl
    · rfl
    · rw [hrev] at hrl
      simp at hrl
      omega
  · intro st0 x y now
    simp [ACState.initPlayer, ACState.recordMove, ACState.detectSpeedHack]

/-- C9 witness: a fresh tracking state has no entry for "p1", so a
speed-hack query returns `false` with the state untouched. -/
theorem detectSpeedHack_insufficient_history_witness :
    ACState.detectSpeedHack ⟨fun _ => none⟩ "p1" 750 =
      (false, (⟨fun _ => none⟩ : ACState)) :=
  (detectSpeedHack_insufficient_history ⟨fun _ => none⟩ "p1" 750).1 rfl

/-! ## Claim C10 -/

/-- C10: `computeDelta` for an observer with no tracking state returns the
full current state and records nothing, so an identical repeat for the same
entity again yields the full state (never a suppression). -/
theorem computeDelta_untracked (st : DCState) (pid eid : String) (cur : JsObj)
    (h : st.previousStates pid = none) :
    st.computeDelta pid eid cur = (some cur, st) ∧
    (st.computeDelta pid eid cur).2.computeDelta pid eid cur = (some cur, st) := by
  have h1 : st.computeDelta pid eid cur = (some cur, st) := by
    simp [DCState.computeDelta, h]
  refine ⟨h1, ?_⟩
  rw [h1]
  exact h1

/-- C10 witness: a fresh delta-compression state, one concrete entity state. -/
theorem computeDelta_untracked_witness :
    DCState.computeDelta ⟨fun _ => none⟩ "obs" "e1"
        [("type", .str "p"), ("x", .num 1)] =
      (some [("type", .str "p"), ("x", .num 1)], (⟨fun _ => none⟩ : DCState)) :=
  (computeDelta_untracked ⟨fun _ => none⟩ "obs" "e1"
    [("type", .str "p"), ("x", .num 1)] rfl).1

/-! ## Claim C8 -/

/-- C8 counterexample1: an `h` packet with no `d` field at all ({type:'h',
x:0, y:0}) passes structural validation and is routed to the move-start
handler, although its `d` is not an integer in [0,3] (it is `undefined`).
The claim that an `h` packet passes only with an integral `d` in [0,3] is
therefore false. -/
theorem hPacket_missing_d_passes_cex :
    validate [("type", .str "h"), ("x", .num 0), ("y", .num 0)] = true ∧
    routeMessage [("type", .str "h"), ("x", .num 0), ("y", .num 0)] = some "h" ∧
    ¬((JsObj.get [("type", JsValue.str "h"), ("x", JsValue.num 0),
        ("y", JsValue.num 0)] "d").isInt = true) := by
  refine ⟨by decide, by decide, by decide⟩

/-- C8 amended: an `m` packet passes structural validation exactly when its
`x` and `y` are finite numbers and `d` is an integer in [0,3]; an `h` packet
passes exactly when its `x` and `y` are finite numbers and `d` is either
absent (`undefined`) or an integer in [0,3]; and any packet failing
validation is never routed to a handler. -/
theorem packet_validation_h_m (pkt : JsObj) :
    (pkt.get "type" = .str "m" →
      (validate pkt = true ↔
        ((pkt.get "x").isFiniteNum = true ∧ (pkt.get "y").isFiniteNum = true ∧
         (pkt.get "d").isInt = true ∧ 0 ≤ (pkt.get "d").toNum ∧
         (pkt.get "d").toNum ≤ 3))) ∧
    (pkt.get "type" = .str "h" →
      (validate pkt = true ↔
        ((pkt.get "x").isFiniteNum = true ∧ (pkt.get "y").isFiniteNum = true ∧
         (pkt.get "d" = JsValue.undef ∨
          ((pkt.get "d").isInt = true ∧ 0 ≤ (pkt.get "d").toNum ∧
           (pkt.get "d").toNum ≤ 3))))) ∧
    (validate pkt = false → routeMessage pkt = none) := by
  refine ⟨?_, ?_, ?_⟩
  · intro ht
    simp only [validate, ht]
    rw [show validatorFor "m" = some mPacketValid from rfl]
    simp [mPacketValid, and_assoc]
  · intro ht
    simp only [validate, ht]
    rw [show validatorFor "h" = some hPacketValid from rfl]
    simp [hPacketValid, and_assoc]
  · intro h
    simp [routeMessage, h]

/-- C8 amended, witness: a well-formed `m` packet validates; an `m` packet
with `d = 7` fails validation and is not routed. -/
theorem packet_validation_h_m_witness :
    validate [("type", .str "m"), ("x", .num 1), ("y", .num 2), ("d", .num 1)] =
      true ∧
    routeMessage [("type", .str "m"), ("x", .num 1), ("y", .num 2),
      ("d", .num 7)] = none :=
  ⟨((packet_validation_h_m [("type", .str "m"), ("x", .num 1), ("y", .num 2),
      ("d", .num 1)]).1 (by decide)).mpr (by decide),
   (packet_validation_h_m [("type", .str "m"), ("x", .num 1), ("y", .num 2),
      ("d", .num 7)]).2.2 (by decide)⟩

/-! ## Claim C6 -/

/-- C6: for a tracked observer and an entity state with distinct field names,
`computeDelta` (c) sends and records the full state on the first observation
of an entity; (a) suppresses the message (`null`) when the current state
equals the last-sent state field for field; and (b) when the two states have
the same field names and at least one field differs, sends an object holding
exactly the changed fields plus the identity fields: `id` is the entity id,
`type` is the current state's type, every other field is present with its
current value iff it changed. -/
theorem computeDelta_tracked (st : DCState) (pid eid : String) (cur : JsObj)
    (entities : String → Option JsObj)
    (hobs : st.previousStates pid = some entities)
    (hnd : (cur.map Prod.fst).Nodup) :
    (entities eid = none →
      (st.computeDelta pid eid cur).1 = some cur ∧
      ∃ entities' : String → Option JsObj,
        ((st.computeDelta pid eid cur).2.previousStates pid = some entities' ∧
         entities' eid = some cur)) ∧
    (∀ prevE : JsObj, entities eid = some prevE →
      (∀ k, cur.get k = prevE.get k) →
      st.computeDelta pid eid cur = (none, st)) ∧
    (∀ prevE : JsObj, entities eid = some prevE →
      (∀ k, cur.hasKey k = prevE.hasKey k) →
      (∃ k, cur.get k ≠ prevE.get k) →
      ∃ delta : JsObj,
        (st.computeDelta pid eid cur).1 = some delta ∧
        delta.get "id" = .str eid ∧
        delta.get "type" = cur.get "type" ∧
        (∀ k, k ≠ "id" → k ≠ "type" →
          delta.get k =
            if cur.get k ≠ prevE.get k then cur.get k else JsValue.undef)) := by
  refine ⟨?_, ?_, ?_⟩
  · intro h
    refine ⟨by simp [DCState.computeDelta, hobs, h], ?_⟩
    refine ⟨fun e => if e = eid then some cur else entities e, ?_, by simp⟩
    simp [DCState.computeDelta, hobs, h]
  · intro prevE hprev heq
    have hchanged : cur.filter (fun e => prevE.get e.1 != e.2) = [] := by
      rw [List.filter_eq_nil_iff]
      intro e he
      have hcur : cur.get e.1 = e.2 := JsObj.get_of_mem_nodup hnd he
      have h2 : prevE.get e.1 = e.2 := by rw [← heq e.1]; exact hcur
      simp [h2]
    simp [DCState.computeDelta, hobs, hprev, hchanged]
  · intro prevE hprev hdom hne
    obtain ⟨k0, hk0⟩ := hne
    have hkey : cur.hasKey k0 = true := by
      by_contra hc
      have hc' : cur.hasKey k0 = false := by simpa using hc
      have hc2 : prevE.hasKey k0 = false := by rw [← hdom k0]; exact hc'
      exact hk0 (by rw [JsObj.get_of_not_hasKey hc', JsObj.get_of_not_hasKey hc2])
    have hmem : (k0, cur.get k0) ∈ cur := JsObj.mem_get_of_hasKey hkey
    have hchangedne : cur.filter (fun e => prevE.get e.1 != e.2) ≠ [] := by
      intro hnil
      have := List.filter_eq_nil_iff.mp hnil _ hmem
      simp only [bne_iff_ne, ne_eq, not_not] at this
      exact hk0 this.symm
    refine ⟨(JsObj.set (JsObj.set (cur.filter (fun e => prevE.get e.1 != e.2))
        "id" (.str eid)) "type" (cur.get "type")), ?_, ?_, ?_, ?_⟩
    · simp [DCState.computeDelta, hobs, hprev, hchangedne]
    · rw [JsObj.get_set_ne _ _ (by decide), JsObj.get_set_self]
    · rw [JsObj.get_set_self]
    · intro k hkid hktype
      rw [JsObj.get_set_ne _ _ hktype, JsObj.get_set_ne _ _ hkid]
      rw [JsObj.get_filter cur hnd]
      by_cases hk : cur.hasKey k = true
      · simp only [hk, if_true]
        by_cases hne2 : cur.get k = prevE.get k
        · simp [hne2]
        · have : (prevE.get k != cur.get k) = true := by
            simp [bne_iff_ne]
            exact fun hc => hne2 hc.symm
          simp [this, hne2]
      · have hk' : cur.hasKey k = false := by simpa using hk
        have hp' : prevE.hasKey k = false := by rw [← hdom k]; exact hk'
        simp [hk', JsObj.get_of_not_hasKey hk', JsObj.get_of_not_hasKey hp']

/-- The tracked state of an observer "obs" that last saw entity "e1" as
`{type:'p', x:1}`. -/
def dcTracked : DCState :=
  ⟨fun k => if k = "obs" then
      some (fun e => if e = "e1" then some [("type", .str "p"), ("x", .num 1)]
        else none)
    else none⟩

/-- C6 witness: sending the identical `{type:'p', x:1}` again for the same
observer/entity pair yields no message and an unchanged state. -/
theorem computeDelta_tracked_witness :
    DCState.computeDelta dcTracked "obs" "e1"
      [("type", .str "p"), ("x", .num 1)] = (none, dcTracked) :=
  ((computeDelta_tracked dcTracked "obs" "e1"
      [("type", .str "p"), ("x", .num 1)] _ rfl (by decide)).2.1
    [("type", .str "p"), ("x", .num 1)] rfl (fun _ => rfl))

end Mystermax
